import Mathlib

/-!
Verification development for the mpris2-zbus client library.

The Rust sources are shallowly embedded: each pure function becomes a Lean
function; each proxy round trip is modelled by an oracle field of a "remote"
structure (the reply the D-Bus collaborator would produce), and methods that
issue calls additionally return the trace of calls they issued.
-/

namespace Mpris

/-! ## zbus error model

Models `zbus::Error` and `zbus::fdo::Error` as far as this crate inspects
them.  `zbus::Error::FDO` boxes an `fdo::Error`, and `fdo::Error::ZBus`
wraps a `zbus::Error`, hence the mutual inductive.  All variants this crate
never matches on are collapsed into `other` carrying a description string.
-/

mutual

inductive ZbusError where
  | FDO (e : FdoError)
  | other (desc : String)

inductive FdoError where
  | NotSupported (msg : String)
  | ZBus (e : ZbusError)
  | otherFdo (name : String) (msg : String)

end

/-! ## zvariant value model

Models the shapes of `zvariant::Value` that matter here: the `Str` variant
(the only one `TryFrom<Value> for PlaylistOrdering` accepts) and a
representative subset of the non-string shapes.
-/

inductive Value where
  | Str (s : String)
  | Bool (b : Bool)
  | I64 (i : Int)
  | U32 (n : Nat)
  | ObjectPath (p : String)
  | Array (vs : List Value)

/-! ## Crate error taxonomy (src/error.rs, plus the variant used by src/playlists.rs)

`error.rs` declares `InvalidEnum`, `IncorrectVariant`, `Zbus` and `Fdo`.
`playlists.rs` (a different revision of the crate) constructs
`Error::IncorrectValue { wanted, actual: OwnedValue }`; both incorrect-shape
variants are embedded so each source file can be modelled as written.
-/

inductive Error where
  | InvalidEnum (got : String) (expected : List String)
  | IncorrectVariant (wanted : String) (actual : String)
  | IncorrectValue (wanted : String) (actual : Value)
  | Zbus (e : ZbusError)
  | Fdo (e : FdoError)

/-- Embeds `impl From<zbus::Error> for Error` from src/error.rs. -/
def Error.fromZbus : ZbusError → Error
  | .FDO err => .Fdo err
  | err => .Zbus err

/-- Embeds `impl From<zbus::fdo::Error> for Error` from src/error.rs. -/
def Error.fromFdo : FdoError → Error
  | .ZBus err => .Zbus err
  | err => .Fdo err

/-- Embeds `handle_optional` from src/lib.rs: `Ok` becomes `Some`, the
specific `zbus::Error::FDO(fdo::Error::NotSupported(_))` failure becomes
`Ok(None)`, and any other failure is propagated through `Error::from`. -/
def handle_optional {T : Type} : Except ZbusError T → Except Error (Option T)
  | .ok input => .ok (some input)
  | .error (.FDO (.NotSupported _)) => .ok none
  | .error err => .error (Error.fromZbus err)

/-- Whether a `ZbusError` is the specific "not supported" remote error that
`handle_optional` absorbs. -/
def ZbusError.isNotSupported : ZbusError → Prop
  | .FDO (.NotSupported _) => True
  | _ => False

instance decNotSupported (e : ZbusError) : Decidable e.isNotSupported := by
  unfold ZbusError.isNotSupported
  split <;> infer_instance

/-! ## String helpers

`str::to_lowercase` and `str::trim` in Rust are Unicode-aware; every token
this crate matches against is ASCII, where they agree with Lean's
`Char.toLower`-based map and `String.trim`.
-/

/-- Embeds `str::to_lowercase` (restricted to the ASCII range on which the
crate's token tables live); stated over the character list so it reduces
structurally. -/
def rustLowercase (s : String) : String := ⟨s.data.map Char.toLower⟩

/-- Embeds `str::trim` (whitespace is Unicode in Rust, ASCII here; they
agree on the ASCII inputs the crate's tables use). -/
def rustTrim (s : String) : String :=
  ⟨((s.data.dropWhile Char.isWhitespace).reverse.dropWhile Char.isWhitespace).reverse⟩

/-- Lowercase-then-trim, the normalisation both `from_str` impls apply. -/
def normalizeToken (s : String) : String := rustTrim (rustLowercase s)

/-! ## PlaybackStatus (src/player.rs) -/

inductive PlaybackStatus where
  | Playing
  | Paused
  | Stopped
deriving DecidableEq, Repr

/-- Embeds `impl FromStr for PlaybackStatus`. -/
def PlaybackStatus.from_str (s : String) : Except Error PlaybackStatus :=
  let t := normalizeToken s
  if t = "playing" then .ok .Playing
  else if t = "paused" then .ok .Paused
  else if t = "stopped" then .ok .Stopped
  else .error (.InvalidEnum s ["Playing", "Paused", "Stopped"])

/-- Embeds `impl Display for PlaybackStatus`. -/
def PlaybackStatus.display : PlaybackStatus → String
  | .Playing => "Playing"
  | .Paused => "Paused"
  | .Stopped => "Stopped"

/-- The three variants, in declaration order. -/
def PlaybackStatus.all : List PlaybackStatus := [.Playing, .Paused, .Stopped]

/-- The parse-token table of `PlaybackStatus::from_str`, stated separately
from the implementation so theorems can relate the two. -/
def PlaybackStatus.parseToken : PlaybackStatus → String
  | .Playing => "playing"
  | .Paused => "paused"
  | .Stopped => "stopped"

/-! ## PlaylistOrdering (src/playlists.rs) -/

inductive PlaylistOrdering where
  | Alphabetical
  | CreationDate
  | ModifiedDate
  | LastPlayDate
  | UserDefined
deriving DecidableEq, Repr

/-- Embeds `impl FromStr for PlaylistOrdering`. -/
def PlaylistOrdering.from_str (s : String) : Except Error PlaylistOrdering :=
  let t := normalizeToken s
  if t = "alphabetical" then .ok .Alphabetical
  else if t = "created" then .ok .CreationDate
  else if t = "modified" then .ok .ModifiedDate
  else if t = "played" then .ok .LastPlayDate
  else if t = "user" then .ok .UserDefined
  else .error (.InvalidEnum s ["Alphabetical", "Created", "Modified", "Played", "User"])

/-- Embeds `impl Display for PlaylistOrdering`. -/
def PlaylistOrdering.display : PlaylistOrdering → String
  | .Alphabetical => "Alphabetical"
  | .CreationDate => "Created"
  | .ModifiedDate => "Modified"
  | .LastPlayDate => "Played"
  | .UserDefined => "User"

/-- The five variants, in declaration order. -/
def PlaylistOrdering.all : List PlaylistOrdering :=
  [.Alphabetical, .CreationDate, .ModifiedDate, .LastPlayDate, .UserDefined]

/-- The parse-token table of `PlaylistOrdering::from_str` (the short
aliases), stated separately from the implementation. -/
def PlaylistOrdering.parseToken : PlaylistOrdering → String
  | .Alphabetical => "alphabetical"
  | .CreationDate => "created"
  | .ModifiedDate => "modified"
  | .LastPlayDate => "played"
  | .UserDefined => "user"

/-- Embeds `impl TryFrom<Value> for PlaylistOrdering` from src/playlists.rs:
a `Str` value is parsed, any other shape yields the incorrect-shape error
carrying the wanted shape name and the actual value. -/
def PlaylistOrdering.try_from (v : Value) : Except Error PlaylistOrdering :=
  match v with
  | .Str s => PlaylistOrdering.from_str s
  | _ => .error (.IncorrectValue ("Str") v)

/-! ## time::Duration -/

/-- Models `time::Duration`: a signed whole-second count plus a nanosecond
part. -/
structure Duration where
  seconds : Int
  nanoseconds : Int
deriving DecidableEq, Repr

/-- Embeds `Duration::microseconds`: decompose a microsecond count into
seconds and nanoseconds (Rust integer division truncates toward zero,
which is `Int.tdiv` and `Int.tmod`). -/
def Duration.microseconds (x : Int) : Duration :=
  ⟨Int.tdiv x 1000000, Int.tmod x 1000000 * 1000⟩

/-- Embeds `Duration::whole_microseconds`: the total nanosecond count
divided by 1000, truncated toward zero. -/
def Duration.whole_microseconds (d : Duration) : Int :=
  Int.tdiv (d.seconds * 1000000000 + d.nanoseconds) 1000

/-- Models Rust's `as i64` cast: wrap into the signed 64-bit range. -/
def wrapI64 (x : Int) : Int := Int.emod (x + 2 ^ 63) (2 ^ 64) - 2 ^ 63

/-- Models an `f64` property value as an opaque 64-bit pattern: the crate
never computes with playback rates, it only passes them through. -/
structure F64 where
  bits : Nat
deriving DecidableEq, Repr

/-- Models `std::ops::RangeInclusive` (fields `start` and `end`). -/
structure RangeInclusive (α : Type) where
  start : α
  last : α
deriving DecidableEq, Repr

/-! ## Player (src/player.rs)

The handle is stateless; every method is a fresh round trip.  A
`PlayerRemote` records the reply the remote player (through `PlayerProxy`)
would give to each property read or method call that `Player`'s methods
perform.  Methods that issue method calls also return the trace of calls
they put on the bus.
-/

structure PlayerRemote where
  position : Except ZbusError Int
  playbackStatus : Except ZbusError String
  rate : Except ZbusError F64
  minimumRate : Except ZbusError F64
  maximumRate : Except ZbusError F64
  canSeek : Except ZbusError Bool
  seekReply : Int → Except ZbusError Unit

/-- Embeds `Player::position`: the raw `i64` microsecond reply is mapped
through `Duration::microseconds`, then through `handle_optional`. -/
def Player.position (r : PlayerRemote) : Except Error (Option Duration) :=
  handle_optional (r.position.map Duration.microseconds)

/-- Embeds `Player::rate` via `handle_optional`. -/
def Player.rate (r : PlayerRemote) : Except Error (Option F64) :=
  handle_optional r.rate

/-- Embeds `Player::minimum_rate` via `handle_optional`. -/
def Player.minimum_rate (r : PlayerRemote) : Except Error (Option F64) :=
  handle_optional r.minimumRate

/-- Embeds `Player::maximum_rate` via `handle_optional`. -/
def Player.maximum_rate (r : PlayerRemote) : Except Error (Option F64) :=
  handle_optional r.maximumRate

/-- Embeds `Player::playback_status`: read the string property, translate a
read failure with `Error::from`, then parse with `PlaybackStatus::from_str`. -/
def Player.playback_status (r : PlayerRemote) : Except Error PlaybackStatus :=
  (r.playbackStatus.mapError Error.fromZbus).bind PlaybackStatus.from_str

/-- Embeds `Player::seek`: read `can_seek`; when false, answer `Ok(false)`
with no call issued; when true, issue one `Seek` call carrying
`duration.whole_microseconds() as i64` and answer `Ok(true)`.  The second
component is the trace of `Seek` offsets issued on the bus. -/
def Player.seek (r : PlayerRemote) (duration : Duration) :
    Except Error Bool × List Int :=
  match r.canSeek with
  | .error e => (.error (Error.fromZbus e), [])
  | .ok true =>
    let off := wrapI64 duration.whole_microseconds
    match r.seekReply off with
    | .ok _ => (.ok true, [off])
    | .error e => (.error (Error.fromZbus e), [off])
  | .ok false => (.ok false, [])

/-- Modelled from the spec: `seek_ahead` is absent from src/.  Spec section
4.6 says it checks `can_seek` first, returns "not performed" when false,
and otherwise issues the seek with the positive (forward) signed
microsecond offset of the duration. -/
def Player.seek_ahead (r : PlayerRemote) (duration : Duration) :
    Except Error Bool × List Int :=
  Player.seek r duration

/-- Modelled from the spec: `seek_back` is absent from src/.  Spec section
4.6 says it checks `can_seek` first, returns "not performed" when false,
and otherwise issues the seek with the negative (backward) signed
microsecond offset of the duration. -/
def Player.seek_back (r : PlayerRemote) (duration : Duration) :
    Except Error Bool × List Int :=
  match r.canSeek with
  | .error e => (.error (Error.fromZbus e), [])
  | .ok true =>
    let off := wrapI64 (- duration.whole_microseconds)
    match r.seekReply off with
    | .ok _ => (.ok true, [off])
    | .error e => (.error (Error.fromZbus e), [off])
  | .ok false => (.ok false, [])

/-- Which optional rate-bound properties `Player::available_rates` read. -/
inductive RateRead where
  | minimum
  | maximum
deriving DecidableEq, Repr

/-- Embeds `Player::available_rates`: read `minimum_rate` and early-return
on error or `None`; only then read `maximum_rate`, with the same policy;
when both are present answer the inclusive range.  The second component is
the trace of rate-bound property reads performed. -/
def Player.available_rates (r : PlayerRemote) :
    Except Error (Option (RangeInclusive F64)) × List RateRead :=
  match Player.minimum_rate r with
  | .error e => (.error e, [.minimum])
  | .ok none => (.ok none, [.minimum])
  | .ok (some minimum) =>
    match Player.maximum_rate r with
    | .error e => (.error e, [.minimum, .maximum])
    | .ok none => (.ok none, [.minimum, .maximum])
    | .ok (some maximum) => (.ok (some ⟨minimum, maximum⟩), [.minimum, .maximum])

/-! ## MediaPlayer (src/media_player.rs) -/

/-- Models `zbus::names::OwnedBusName`: a validated bus-name string. -/
abbrev BusName := String

/-- Models the `MediaPlayer` handle: a proxy bound to one destination. -/
structure MediaPlayer where
  destination : BusName
deriving DecidableEq, Repr

/-- Models the `TrackList` handle: a proxy bound to one destination. -/
structure TrackList where
  destination : BusName
deriving DecidableEq, Repr

/-- Embeds `str::starts_with` structurally over the character list. -/
def rustStartsWith (s p : String) : Bool := p.data.isPrefixOf s.data

/-- The collaborator-side outcomes that `MediaPlayer::available_players`
and `MediaPlayer::new_all` depend on: whether the `DBusProxy` builds, the
bus's `ListNames` reply, and, per destination, whether
`MediaPlayer2Proxy` construction (`builder…destination(name)?.build()`)
succeeds. -/
structure Bus where
  dbusProxyBuild : Except ZbusError Unit
  listNames : Except FdoError (List BusName)
  buildProxy : BusName → Except ZbusError Unit

/-- Embeds `MediaPlayer::available_players`: list the bus names and keep,
in bus order, exactly those starting with `"org.mpris.MediaPlayer2."`. -/
def MediaPlayer.available_players (bus : Bus) : Except Error (List BusName) :=
  match bus.dbusProxyBuild with
  | .error e => .error (Error.fromZbus e)
  | .ok _ =>
    match bus.listNames with
    | .error e => .error (Error.fromFdo e)
    | .ok names => .ok (names.filter (fun name => rustStartsWith name ("org.mpris.MediaPlayer2.")))

/-- Embeds `MediaPlayer::new`: proxy construction bound to `name`. -/
def MediaPlayer.new (bus : Bus) (name : BusName) : Except Error MediaPlayer :=
  match bus.buildProxy name with
  | .ok _ => .ok ⟨name⟩
  | .error e => .error (Error.fromZbus e)

/-- Embeds the `for` loop of `MediaPlayer::new_all`: construct a handle per
name in order, propagating the first failure with `?`. -/
def MediaPlayer.new_each (bus : Bus) : List BusName → Except Error (List MediaPlayer)
  | [] => .ok []
  | name :: rest =>
    match MediaPlayer.new bus name with
    | .error e => .error e
    | .ok inst =>
      match MediaPlayer.new_each bus rest with
      | .error e => .error e
      | .ok tl => .ok (inst :: tl)

/-- Embeds `MediaPlayer::new_all`: discover, then construct one handle per
discovered name. -/
def MediaPlayer.new_all (bus : Bus) : Except Error (List MediaPlayer) :=
  match MediaPlayer.available_players bus with
  | .error e => .error e
  | .ok players => MediaPlayer.new_each bus players

/-- The collaborator-side outcomes `MediaPlayer::track_list` depends on:
the `HasTrackList` property reply and whether the `TrackListProxy` build
succeeds. -/
structure MediaPlayerRemote where
  hasTrackList : Except ZbusError Bool
  buildTrackListProxy : Except ZbusError Unit

/-- Embeds `MediaPlayer::track_list`: read `has_track_list`; when false,
answer `Ok(None)` without building anything; when true, build a
`TrackList` bound to the same destination.  The second component records
whether a `TrackListProxy` construction was attempted. -/
def MediaPlayer.track_list (self : MediaPlayer) (r : MediaPlayerRemote) :
    Except Error (Option TrackList) × Bool :=
  match r.hasTrackList with
  | .error e => (.error (Error.fromZbus e), false)
  | .ok true =>
    match r.buildTrackListProxy with
    | .ok _ => (.ok (some ⟨self.destination⟩), true)
    | .error e => (.error (Error.fromZbus e), true)
  | .ok false => (.ok none, false)

/-! ## Helper lemmas about the enum parsers -/

theorem playbackFromStrOkIff (s : String) (v : PlaybackStatus) :
    PlaybackStatus.from_str s = .ok v ↔
      normalizeToken s = PlaybackStatus.parseToken v := by
  unfold PlaybackStatus.from_str
  by_cases h1 : normalizeToken s = "playing"
  · cases v <;> rw [h1] <;> simp [PlaybackStatus.parseToken]
  · by_cases h2 : normalizeToken s = "paused"
    · cases v <;> rw [h2] <;> simp [PlaybackStatus.parseToken]
    · by_cases h3 : normalizeToken s = "stopped"
      · cases v <;> rw [h3] <;> simp [PlaybackStatus.parseToken]
      · cases v <;> simp [h1, h2, h3, PlaybackStatus.parseToken]

theorem playbackFromStrNoMatch (s : String)
    (h : ∀ v : PlaybackStatus, normalizeToken s ≠ PlaybackStatus.parseToken v) :
    PlaybackStatus.from_str s =
      .error (.InvalidEnum s (PlaybackStatus.all.map PlaybackStatus.display)) := by
  have h1 : normalizeToken s ≠ "playing" := h .Playing
  have h2 : normalizeToken s ≠ "paused" := h .Paused
  have h3 : normalizeToken s ≠ "stopped" := h .Stopped
  unfold PlaybackStatus.from_str
  rw [if_neg h1, if_neg h2, if_neg h3]
  rfl

theorem playlistFromStrOkIff (s : String) (v : PlaylistOrdering) :
    PlaylistOrdering.from_str s = .ok v ↔
      normalizeToken s = PlaylistOrdering.parseToken v := by
  unfold PlaylistOrdering.from_str
  by_cases h1 : normalizeToken s = "alphabetical"
  · cases v <;> rw [h1] <;> simp [PlaylistOrdering.parseToken]
  · by_cases h2 : normalizeToken s = "created"
    · cases v <;> rw [h2] <;> simp [PlaylistOrdering.parseToken]
    · by_cases h3 : normalizeToken s = "modified"
      · cases v <;> rw [h3] <;> simp [PlaylistOrdering.parseToken]
      · by_cases h4 : normalizeToken s = "played"
        · cases v <;> rw [h4] <;> simp [PlaylistOrdering.parseToken]
        · by_cases h5 : normalizeToken s = "user"
          · cases v <;> rw [h5] <;> simp [PlaylistOrdering.parseToken]
          · cases v <;> simp [h1, h2, h3, h4, h5, PlaylistOrdering.parseToken]

theorem playlistFromStrNoMatch (s : String)
    (h : ∀ v : PlaylistOrdering, normalizeToken s ≠ PlaylistOrdering.parseToken v) :
    PlaylistOrdering.from_str s =
      .error (.InvalidEnum s (PlaylistOrdering.all.map PlaylistOrdering.display)) := by
  have h1 : normalizeToken s ≠ "alphabetical" := h .Alphabetical
  have h2 : normalizeToken s ≠ "created" := h .CreationDate
  have h3 : normalizeToken s ≠ "modified" := h .ModifiedDate
  have h4 : normalizeToken s ≠ "played" := h .LastPlayDate
  have h5 : normalizeToken s ≠ "user" := h .UserDefined
  unfold PlaylistOrdering.from_str
  rw [if_neg h1, if_neg h2, if_neg h3, if_neg h4, if_neg h5]
  rfl

/-! ## Claim theorems -/

/-- C2: for every variant of `PlaybackStatus` and of `PlaylistOrdering`,
parsing the canonical display string produced by formatting the variant
yields exactly that variant, with no error. -/
theorem enum_display_roundtrip :
    (∀ x : PlaybackStatus,
      PlaybackStatus.from_str (PlaybackStatus.display x) = .ok x) ∧
    (∀ x : PlaylistOrdering,
      PlaylistOrdering.from_str (PlaylistOrdering.display x) = .ok x) := by
  constructor
  · intro x; cases x <;> rfl
  · intro x; cases x <;> rfl

/-- C6: both parsers lowercase and trim the input and match the result
against their fixed parse-token table; on no match they fail with
`InvalidEnum` whose `got` field is the original unmodified input and whose
`expected` field lists the canonical display tokens; and the named concrete
inputs behave as stated. -/
theorem parse_normalizes_and_reports :
    (∀ (s : String) (v : PlaybackStatus),
      PlaybackStatus.from_str s = .ok v ↔
        normalizeToken s = PlaybackStatus.parseToken v) ∧
    (∀ s : String,
      (∀ v : PlaybackStatus, normalizeToken s ≠ PlaybackStatus.parseToken v) →
      PlaybackStatus.from_str s =
        .error (.InvalidEnum s (PlaybackStatus.all.map PlaybackStatus.display))) ∧
    (∀ (s : String) (v : PlaylistOrdering),
      PlaylistOrdering.from_str s = .ok v ↔
        normalizeToken s = PlaylistOrdering.parseToken v) ∧
    (∀ s : String,
      (∀ v : PlaylistOrdering, normalizeToken s ≠ PlaylistOrdering.parseToken v) →
      PlaylistOrdering.from_str s =
        .error (.InvalidEnum s (PlaylistOrdering.all.map PlaylistOrdering.display))) ∧
    PlaybackStatus.from_str ("PLAYING") = .ok .Playing ∧
    PlaybackStatus.from_str ("  paused ") = .ok .Paused ∧
    PlaybackStatus.from_str ("stopped") = .ok .Stopped ∧
    PlaybackStatus.from_str ("buffering") =
      .error (.InvalidEnum ("buffering") ["Playing", "Paused", "Stopped"]) :=
  ⟨playbackFromStrOkIff, playbackFromStrNoMatch,
   playlistFromStrOkIff, playlistFromStrNoMatch, rfl, rfl, rfl, rfl⟩

/-- Witness for C6 at concrete inputs. -/
theorem parse_normalizes_and_reports_witness :
    PlaybackStatus.from_str ("buffering") =
      .error (.InvalidEnum ("buffering")
        (PlaybackStatus.all.map PlaybackStatus.display)) ∧
    PlaylistOrdering.from_str ("QUEUE") =
      .error (.InvalidEnum ("QUEUE")
        (PlaylistOrdering.all.map PlaylistOrdering.display)) ∧
    PlaylistOrdering.from_str ("  CREATED ") = .ok .CreationDate :=
  ⟨parse_normalizes_and_reports.2.1 ("buffering") (by intro v; cases v <;> decide),
   parse_normalizes_and_reports.2.2.2.1 ("QUEUE") (by intro v; cases v <;> decide),
   (parse_normalizes_and_reports.2.2.1 ("  CREATED ") .CreationDate).mpr (by decide)⟩

/-- C7: `playback_status` propagates a failed property read through
`Error::from`, and parses a successful read with `PlaybackStatus::from_str`,
so an unrecognised token yields `InvalidEnum`, never a default. -/
theorem playback_status_reads_then_parses :
    (∀ (r : PlayerRemote) (e : ZbusError), r.playbackStatus = .error e →
      Player.playback_status r = .error (Error.fromZbus e)) ∧
    (∀ (r : PlayerRemote) (s : String), r.playbackStatus = .ok s →
      Player.playback_status r = PlaybackStatus.from_str s) ∧
    (∀ (r : PlayerRemote) (s : String), r.playbackStatus = .ok s →
      (∀ v : PlaybackStatus, normalizeToken s ≠ PlaybackStatus.parseToken v) →
      Player.playback_status r =
        .error (.InvalidEnum s (PlaybackStatus.all.map PlaybackStatus.display))) := by
  refine ⟨?_, ?_, ?_⟩
  · intro r e h
    simp [Player.playback_status, h, Except.mapError, Except.bind]
  · intro r s h
    simp [Player.playback_status, h, Except.mapError, Except.bind]
  · intro r s h hv
    simp [Player.playback_status, h, Except.mapError, Except.bind]
    exact playbackFromStrNoMatch s hv

/-- Witness for C7 at a concrete remote. -/
theorem playback_status_reads_then_parses_witness :
    Player.playback_status
        ⟨.ok 0, .error (.other ("connection reset")), .ok ⟨0⟩, .ok ⟨0⟩, .ok ⟨0⟩,
          .ok true, fun _ => .ok ()⟩ =
      .error (.Zbus (.other ("connection reset"))) ∧
    Player.playback_status
        ⟨.ok 0, .ok ("buffering"), .ok ⟨0⟩, .ok ⟨0⟩, .ok ⟨0⟩,
          .ok true, fun _ => .ok ()⟩ =
      .error (.InvalidEnum ("buffering")
        (PlaybackStatus.all.map PlaybackStatus.display)) :=
  ⟨playback_status_reads_then_parses.1 _ (.other ("connection reset")) rfl,
   playback_status_reads_then_parses.2.2 _ ("buffering") rfl
     (by intro v; cases v <;> decide)⟩

/-- C10: a typed read of a `PlaylistOrdering` from a variant value succeeds
only on a string value (then parsed by the enum parser); every non-string
value fails with the incorrect-shape error recording the wanted shape
`"Str"` and the actual value received. -/
theorem playlist_ordering_try_from_spec :
    (∀ s : String,
      PlaylistOrdering.try_from (.Str s) = PlaylistOrdering.from_str s) ∧
    (∀ v : Value, (∀ s, v ≠ .Str s) →
      PlaylistOrdering.try_from v = .error (.IncorrectValue ("Str") v)) ∧
    (∀ (v : Value) (o : PlaylistOrdering), PlaylistOrdering.try_from v = .ok o →
      ∃ s, v = .Str s ∧ PlaylistOrdering.from_str s = .ok o) := by
  refine ⟨fun s => rfl, ?_, ?_⟩
  · intro v h
    cases v with
    | Str s => exact absurd rfl (h s)
    | Bool b => rfl
    | I64 i => rfl
    | U32 n => rfl
    | ObjectPath p => rfl
    | Array vs => rfl
  · intro v o h
    cases v with
    | Str s => exact ⟨s, rfl, h⟩
    | Bool b => exact absurd h (by simp [PlaylistOrdering.try_from])
    | I64 i => exact absurd h (by simp [PlaylistOrdering.try_from])
    | U32 n => exact absurd h (by simp [PlaylistOrdering.try_from])
    | ObjectPath p => exact absurd h (by simp [PlaylistOrdering.try_from])
    | Array vs => exact absurd h (by simp [PlaylistOrdering.try_from])

/-- Witness for C10 at concrete values. -/
theorem playlist_ordering_try_from_spec_witness :
    PlaylistOrdering.try_from (.Bool true) =
      .error (.IncorrectValue ("Str") (.Bool true)) ∧
    (∃ s, Value.Str ("created") = Value.Str s ∧
      PlaylistOrdering.from_str s = .ok .CreationDate) :=
  ⟨playlist_ordering_try_from_spec.2.1 (.Bool true) (fun s h => by cases h),
   playlist_ordering_try_from_spec.2.2 (.Str ("created")) .CreationDate rfl⟩

/-- C1: `handle_optional` turns a success into `Some`, the specific
"not supported" remote error into a successful `None`, and propagates every
other error through `Error::from`; and each declared-optional `Player`
property method (`position`, `rate`, `minimum_rate`, `maximum_rate`) is
exactly this one shared adapter applied to its raw proxy read. -/
theorem optional_property_adapter :
    (∀ (T : Type) (v : T), handle_optional (.ok v) = .ok (some v)) ∧
    (∀ (T : Type) (m : String),
      handle_optional (T := T) (.error (.FDO (.NotSupported m))) = .ok none) ∧
    (∀ (T : Type) (e : ZbusError), ¬ e.isNotSupported →
      handle_optional (T := T) (.error e) = .error (Error.fromZbus e)) ∧
    (∀ r : PlayerRemote,
      Player.position r = handle_optional (r.position.map Duration.microseconds) ∧
      Player.rate r = handle_optional r.rate ∧
      Player.minimum_rate r = handle_optional r.minimumRate ∧
      Player.maximum_rate r = handle_optional r.maximumRate) := by
  refine ⟨fun T v => rfl, fun T m => rfl, ?_, fun r => ⟨rfl, rfl, rfl, rfl⟩⟩
  intro T e h
  match e with
  | .FDO (.NotSupported m) => exact absurd trivial h
  | .FDO (.ZBus z) => rfl
  | .FDO (.otherFdo n m) => rfl
  | .other d => rfl

/-- Witness for C1 at concrete reads: a "not supported" failure of `rate`
is absent, a transport failure propagates, a success is `Some`. -/
theorem optional_property_adapter_witness :
    Player.rate ⟨.ok 0, .ok ("Playing"), .error (.FDO (.NotSupported ("nope"))),
        .ok ⟨0⟩, .ok ⟨0⟩, .ok true, fun _ => .ok ()⟩ = .ok none ∧
    Player.rate ⟨.ok 0, .ok ("Playing"), .error (.other ("connection reset")),
        .ok ⟨0⟩, .ok ⟨0⟩, .ok true, fun _ => .ok ()⟩ =
      .error (Error.fromZbus (.other ("connection reset"))) ∧
    Player.rate ⟨.ok 0, .ok ("Playing"), .ok ⟨42⟩,
        .ok ⟨0⟩, .ok ⟨0⟩, .ok true, fun _ => .ok ()⟩ = .ok (some ⟨42⟩) :=
  ⟨optional_property_adapter.2.1 F64 ("nope"),
   optional_property_adapter.2.2.1 F64 (.other ("connection reset")) (fun h => h),
   optional_property_adapter.1 F64 ⟨42⟩⟩

/-- C4: `seek` (and the spec's `seek_ahead`/`seek_back`) reads `can_seek`
first; when it is false the result is `Ok(false)` with no seek call issued;
when it is true exactly one seek call is issued, carrying the duration's
whole microseconds cast to `i64` (negated for `seek_back`), and the result
is `Ok(true)`. -/
theorem seek_checks_can_seek :
    (∀ (r : PlayerRemote) (d : Duration), r.canSeek = .ok false →
      Player.seek r d = (.ok false, []) ∧
      Player.seek_ahead r d = (.ok false, []) ∧
      Player.seek_back r d = (.ok false, [])) ∧
    (∀ (r : PlayerRemote) (d : Duration), r.canSeek = .ok true →
      r.seekReply (wrapI64 d.whole_microseconds) = .ok () →
      Player.seek r d = (.ok true, [wrapI64 d.whole_microseconds]) ∧
      Player.seek_ahead r d = (.ok true, [wrapI64 d.whole_microseconds])) ∧
    (∀ (r : PlayerRemote) (d : Duration), r.canSeek = .ok true →
      r.seekReply (wrapI64 (- d.whole_microseconds)) = .ok () →
      Player.seek_back r d = (.ok true, [wrapI64 (- d.whole_microseconds)])) := by
  refine ⟨?_, ?_, ?_⟩
  · intro r d h
    refine ⟨?_, ?_, ?_⟩ <;> simp [Player.seek, Player.seek_ahead, Player.seek_back, h]
  · intro r d h hs
    constructor <;> simp [Player.seek, Player.seek_ahead, h, hs]
  · intro r d h hs
    simp [Player.seek_back, h, hs]

/-- Witness for C4: a player that cannot seek performs nothing; one that
can seek issues exactly the one-second (1000000 microsecond) offset. -/
theorem seek_checks_can_seek_witness :
    Player.seek_ahead ⟨.ok 0, .ok ("Playing"), .ok ⟨0⟩, .ok ⟨0⟩, .ok ⟨0⟩,
        .ok false, fun _ => .ok ()⟩ ⟨1, 0⟩ = (.ok false, []) ∧
    Player.seek ⟨.ok 0, .ok ("Playing"), .ok ⟨0⟩, .ok ⟨0⟩, .ok ⟨0⟩,
        .ok true, fun _ => .ok ()⟩ ⟨1, 0⟩ = (.ok true, [1000000]) ∧
    Player.seek_back ⟨.ok 0, .ok ("Playing"), .ok ⟨0⟩, .ok ⟨0⟩, .ok ⟨0⟩,
        .ok true, fun _ => .ok ()⟩ ⟨1, 0⟩ = (.ok true, [-1000000]) :=
  ⟨(seek_checks_can_seek.1 _ ⟨1, 0⟩ rfl).2.1,
   (seek_checks_can_seek.2.1 _ ⟨1, 0⟩ rfl rfl).1,
   seek_checks_can_seek.2.2 _ ⟨1, 0⟩ rfl rfl⟩

/-- C5: `available_rates` reads `minimum_rate` first and answers absent
without reading `maximum_rate` when the minimum is absent; answers absent
after both reads when only the maximum is absent; answers the inclusive
range when both are present; and propagates any error from either read. -/
theorem available_rates_short_circuit :
    (∀ (r : PlayerRemote) (m : String),
      r.minimumRate = .error (.FDO (.NotSupported m)) →
      Player.available_rates r = (.ok none, [.minimum])) ∧
    (∀ (r : PlayerRemote) (minimum : F64) (m : String),
      r.minimumRate = .ok minimum →
      r.maximumRate = .error (.FDO (.NotSupported m)) →
      Player.available_rates r = (.ok none, [.minimum, .maximum])) ∧
    (∀ (r : PlayerRemote) (minimum maximum : F64),
      r.minimumRate = .ok minimum → r.maximumRate = .ok maximum →
      Player.available_rates r =
        (.ok (some ⟨minimum, maximum⟩), [.minimum, .maximum])) ∧
    (∀ (r : PlayerRemote) (e : ZbusError), ¬ e.isNotSupported →
      r.minimumRate = .error e →
      Player.available_rates r = (.error (Error.fromZbus e), [.minimum])) ∧
    (∀ (r : PlayerRemote) (minimum : F64) (e : ZbusError),
      r.minimumRate = .ok minimum → ¬ e.isNotSupported →
      r.maximumRate = .error e →
      Player.available_rates r =
        (.error (Error.fromZbus e), [.minimum, .maximum])) := by
  have habs : ∀ (e : ZbusError), ¬ e.isNotSupported →
      handle_optional (T := F64) (.error e) = .error (Error.fromZbus e) := by
    intro e h
    match e with
    | .FDO (.NotSupported m) => exact absurd trivial h
    | .FDO (.ZBus z) => rfl
    | .FDO (.otherFdo n m) => rfl
    | .other d => rfl
  refine ⟨?_, ?_, ?_, ?_, ?_⟩
  · intro r m h
    simp [Player.available_rates, Player.minimum_rate, handle_optional, h]
  · intro r minimum m h1 h2
    simp [Player.available_rates, Player.minimum_rate, Player.maximum_rate,
      handle_optional, h1, h2]
  · intro r minimum maximum h1 h2
    simp [Player.available_rates, Player.minimum_rate, Player.maximum_rate,
      handle_optional, h1, h2]
  · intro r e he h
    have := habs e he
    simp [Player.available_rates, Player.minimum_rate, h, this]
  · intro r minimum e h1 he h2
    have hmin : Player.minimum_rate r = .ok (some minimum) := by
      simp [Player.minimum_rate, handle_optional, h1]
    have hmax : Player.maximum_rate r = .error (Error.fromZbus e) := by
      unfold Player.maximum_rate
      rw [h2]
      exact habs e he
    simp [Player.available_rates, hmin, hmax]

/-- Witness for C5: minimum absent short-circuits; maximum absent after a
present minimum reads both; both present gives the range; a transport
failure on the maximum read propagates. -/
theorem available_rates_short_circuit_witness :
    Player.available_rates ⟨.ok 0, .ok ("Playing"), .ok ⟨0⟩,
        .error (.FDO (.NotSupported ("no min"))), .ok ⟨7⟩, .ok true,
        fun _ => .ok ()⟩ = (.ok none, [.minimum]) ∧
    Player.available_rates ⟨.ok 0, .ok ("Playing"), .ok ⟨0⟩,
        .ok ⟨3⟩, .error (.FDO (.NotSupported ("no max"))), .ok true,
        fun _ => .ok ()⟩ = (.ok none, [.minimum, .maximum]) ∧
    Player.available_rates ⟨.ok 0, .ok ("Playing"), .ok ⟨0⟩,
        .ok ⟨3⟩, .ok ⟨7⟩, .ok true, fun _ => .ok ()⟩ =
      (.ok (some ⟨⟨3⟩, ⟨7⟩⟩), [.minimum, .maximum]) ∧
    Player.available_rates ⟨.ok 0, .ok ("Playing"), .ok ⟨0⟩,
        .ok ⟨3⟩, .error (.other ("connection reset")), .ok true,
        fun _ => .ok ()⟩ =
      (.error (Error.fromZbus (.other ("connection reset"))),
        [.minimum, .maximum]) :=
  ⟨available_rates_short_circuit.1 _ ("no min") rfl,
   available_rates_short_circuit.2.1 _ ⟨3⟩ "no max" rfl rfl,
   available_rates_short_circuit.2.2.1 _ ⟨3⟩ ⟨7⟩ rfl rfl,
   available_rates_short_circuit.2.2.2.2 _ ⟨3⟩ (.other ("connection reset"))
     rfl (fun h => h) rfl⟩

/-- C9: `track_list` probes the `has_track_list` capability first: a false
capability answers `Ok(None)` without attempting to build a handle; a true
capability builds a `TrackList` bound to the same destination; an error
from the probe or the build propagates. -/
theorem track_list_capability_probe :
    (∀ (self : MediaPlayer) (r : MediaPlayerRemote),
      r.hasTrackList = .ok false →
      MediaPlayer.track_list self r = (.ok none, false)) ∧
    (∀ (self : MediaPlayer) (r : MediaPlayerRemote),
      r.hasTrackList = .ok true → r.buildTrackListProxy = .ok () →
      MediaPlayer.track_list self r =
        (.ok (some ⟨self.destination⟩), true)) ∧
    (∀ (self : MediaPlayer) (r : MediaPlayerRemote) (e : ZbusError),
      r.hasTrackList = .error e →
      MediaPlayer.track_list self r = (.error (Error.fromZbus e), false)) ∧
    (∀ (self : MediaPlayer) (r : MediaPlayerRemote) (e : ZbusError),
      r.hasTrackList = .ok true → r.buildTrackListProxy = .error e →
      MediaPlayer.track_list self r = (.error (Error.fromZbus e), true)) := by
  refine ⟨?_, ?_, ?_, ?_⟩
  · intro self r h
    simp [MediaPlayer.track_list, h]
  · intro self r h hb
    simp [MediaPlayer.track_list, h, hb]
  · intro self r e h
    simp [MediaPlayer.track_list, h]
  · intro self r e h hb
    simp [MediaPlayer.track_list, h, hb]

/-- Witness for C9 at a concrete handle and remote. -/
theorem track_list_capability_probe_witness :
    MediaPlayer.track_list ⟨"org.mpris.MediaPlayer2.vlc"⟩
        ⟨.ok false, .ok ()⟩ = (.ok none, false) ∧
    MediaPlayer.track_list ⟨"org.mpris.MediaPlayer2.vlc"⟩
        ⟨.ok true, .ok ()⟩ =
      (.ok (some ⟨"org.mpris.MediaPlayer2.vlc"⟩), true) :=
  ⟨track_list_capability_probe.1 _ _ rfl,
   track_list_capability_probe.2.1 ⟨"org.mpris.MediaPlayer2.vlc"⟩ _ rfl rfl⟩

/-! ## Helper lemmas about discovery and batch connection -/

theorem mediaPlayerNewOkDest (bus : Bus) (name : BusName) (mp : MediaPlayer)
    (h : MediaPlayer.new bus name = .ok mp) : mp = ⟨name⟩ := by
  unfold MediaPlayer.new at h
  cases hb : bus.buildProxy name with
  | ok u => rw [hb] at h; simp at h; exact h.symm
  | error e => rw [hb] at h; simp at h

theorem newEachOkNames (bus : Bus) :
    ∀ (names : List BusName) (l : List MediaPlayer),
      MediaPlayer.new_each bus names = .ok l →
      l.map MediaPlayer.destination = names := by
  intro names
  induction names with
  | nil =>
    intro l h
    simp [MediaPlayer.new_each] at h
    simp [← h]
  | cons n rest ih =>
    intro l h
    unfold MediaPlayer.new_each at h
    cases hn : MediaPlayer.new bus n with
    | error e => rw [hn] at h; simp at h
    | ok inst =>
      rw [hn] at h
      cases hr : MediaPlayer.new_each bus rest with
      | error e => rw [hr] at h; simp at h
      | ok tl =>
        rw [hr] at h
        simp at h
        rw [← h]
        have hd := mediaPlayerNewOkDest bus n inst hn
        subst hd
        simp [ih tl hr]

theorem newEachFailFast (bus : Bus) :
    ∀ (pre : List BusName) (n : BusName) (post : List BusName) (e : Error),
      (∀ m ∈ pre, ∃ mp, MediaPlayer.new bus m = .ok mp) →
      MediaPlayer.new bus n = .error e →
      MediaPlayer.new_each bus (pre ++ n :: post) = .error e := by
  intro pre
  induction pre with
  | nil =>
    intro n post e _ hn
    simp [MediaPlayer.new_each, hn]
  | cons p rest ih =>
    intro n post e hpre hn
    obtain ⟨mp, hmp⟩ := hpre p (List.mem_cons_self p rest)
    have hrest : ∀ m ∈ rest, ∃ q, MediaPlayer.new bus m = .ok q :=
      fun m hm => hpre m (List.mem_cons_of_mem p hm)
    have hrec := ih n post e hrest hn
    simp [MediaPlayer.new_each, hmp, hrec]

/-- C3: `new_all` discovers first, then constructs one handle per
discovered name in discovery order; when every construction succeeds the
handles' destinations are exactly the discovered names in order, and when
the construction for some discovered name fails (all earlier ones
succeeding) the whole call returns that error, with no partial list. -/
theorem new_all_fail_fast :
    (∀ (bus : Bus) (l : List MediaPlayer), MediaPlayer.new_all bus = .ok l →
      MediaPlayer.available_players bus =
        .ok (l.map MediaPlayer.destination)) ∧
    (∀ (bus : Bus) (pre post : List BusName) (n : BusName) (e : Error),
      MediaPlayer.available_players bus = .ok (pre ++ n :: post) →
      (∀ m ∈ pre, ∃ mp, MediaPlayer.new bus m = .ok mp) →
      MediaPlayer.new bus n = .error e →
      MediaPlayer.new_all bus = .error e) := by
  constructor
  · intro bus l h
    unfold MediaPlayer.new_all at h
    cases ha : MediaPlayer.available_players bus with
    | error e => rw [ha] at h; simp at h
    | ok names =>
      rw [ha] at h
      have h2 : MediaPlayer.new_each bus names = .ok l := h
      rw [newEachOkNames bus names l h2]
  · intro bus pre post n e ha hpre hn
    unfold MediaPlayer.new_all
    rw [ha]
    exact newEachFailFast bus pre n post e hpre hn

/-- A bus exposing two MPRIS players, every proxy construction succeeding. -/
def busAllOk : Bus :=
  ⟨.ok (), .ok ["org.mpris.MediaPlayer2.a", "org.mpris.MediaPlayer2.b"],
    fun _ => .ok ()⟩

/-- The same bus, with proxy construction failing for the second player. -/
def busSecondFails : Bus :=
  ⟨.ok (), .ok ["org.mpris.MediaPlayer2.a", "org.mpris.MediaPlayer2.b"],
    fun name => if name = "org.mpris.MediaPlayer2.b"
      then .error (.other ("player vanished")) else .ok ()⟩

/-- Witness for C3: the all-successful bus yields both handles in order
(so discovery equals the handles' destinations), and the bus whose second
construction fails makes the whole batch fail with that error. -/
theorem new_all_fail_fast_witness :
    MediaPlayer.available_players busAllOk =
      .ok (List.map MediaPlayer.destination
        [⟨"org.mpris.MediaPlayer2.a"⟩, ⟨"org.mpris.MediaPlayer2.b"⟩]) ∧
    MediaPlayer.new_all busSecondFails =
      .error (.Zbus (.other ("player vanished"))) :=
  ⟨new_all_fail_fast.1 busAllOk
      [⟨"org.mpris.MediaPlayer2.a"⟩, ⟨"org.mpris.MediaPlayer2.b"⟩] rfl,
   new_all_fail_fast.2 busSecondFails ["org.mpris.MediaPlayer2.a"] []
      "org.mpris.MediaPlayer2.b" (.Zbus (.other ("player vanished"))) rfl
      (by
        intro m hm
        simp at hm
        subst hm
        exact ⟨⟨"org.mpris.MediaPlayer2.a"⟩, rfl⟩)
      rfl⟩

/-- C8: discovery keeps exactly the session-bus names starting with the
MPRIS2 namespace `"org.mpris.MediaPlayer2."`, in the order the bus
returned them, without sorting or de-duplication; on a bus exposing the
vlc player and the notification service only the vlc name remains. -/
theorem available_players_filters :
    (∀ (bus : Bus) (names result : List BusName),
      bus.dbusProxyBuild = .ok () → bus.listNames = .ok names →
      MediaPlayer.available_players bus = .ok result →
      result = names.filter
        (fun n => rustStartsWith n ("org.mpris.MediaPlayer2.")) ∧
      result.Sublist names ∧
      (∀ n, n ∈ result ↔
        n ∈ names ∧ rustStartsWith n ("org.mpris.MediaPlayer2.") = true) ∧
      (∀ n, result.count n =
        if rustStartsWith n ("org.mpris.MediaPlayer2.")
        then names.count n else 0)) ∧
    MediaPlayer.available_players
        ⟨.ok (),
          .ok ["org.mpris.MediaPlayer2.vlc", "org.freedesktop.Notifications"],
          fun _ => .ok ()⟩ =
      .ok ["org.mpris.MediaPlayer2.vlc"] := by
  constructor
  · intro bus names result hb hl h
    have hres : result = names.filter
        (fun n => rustStartsWith n ("org.mpris.MediaPlayer2.")) := by
      unfold MediaPlayer.available_players at h
      rw [hb, hl] at h
      simp at h
      exact h.symm
    subst hres
    refine ⟨rfl, List.filter_sublist _, ?_, ?_⟩
    · intro n
      simp [List.mem_filter]
    · intro n
      by_cases hp : rustStartsWith n ("org.mpris.MediaPlayer2.") = true
      · rw [if_pos hp]
        exact List.count_filter hp
      · rw [if_neg hp]
        exact List.count_eq_zero.mpr
          (fun hmem => hp (List.mem_filter.mp hmem).2)
  · rfl

/-- Witness for C8: the filtered vlc-only result is a sublist of the bus
reply, by the filter characterisation at the concrete bus. -/
theorem available_players_filters_witness :
    (["org.mpris.MediaPlayer2.vlc"] : List BusName).Sublist
      ["org.mpris.MediaPlayer2.vlc", "org.freedesktop.Notifications"] :=
  (available_players_filters.1
      ⟨.ok (),
        .ok ["org.mpris.MediaPlayer2.vlc", "org.freedesktop.Notifications"],
        fun _ => .ok ()⟩
      ["org.mpris.MediaPlayer2.vlc", "org.freedesktop.Notifications"]
      ["org.mpris.MediaPlayer2.vlc"] rfl rfl rfl).2.1

end Mpris
